import Mathlib

/-
Verification of the transactional/migration core of the payload database
adapter layer, together with the mongoose adapter constructor
(`mongooseAdapter` / `findMigrationDir`) embedded from the source.

The transaction coordinator, session registry, operation executors and the
migration engine live in the `payload` core package; only their tests, type
declarations and the adapter constructor are present in the repository
sources, so those components are modelled from the specification text
(sections 3, 4.2, 4.3, 4.4, 4.5), as flagged in each doc comment.
-/

namespace PayloadDB

/-- Error taxonomy of the spec (section 7). -/
inductive DBError where
  | NotFoundError
  | ValidationError
  | BackendError
  | TransactionUnsupportedError
  | MigrationError
  | FreshNotAcknowledged
deriving DecidableEq, Repr

/-- A persisted document: an id allocated by the backend plus its payload
data (reduced to the `title` field the database tests exercise). -/
structure Doc where
  id : Nat
  title : String
deriving DecidableEq, Repr

/-- Modelled from the spec: a SessionRegistryEntry value (section 3) - the
backend-native TransactionHandle plus the writes pending inside that open
transaction (a write inside an uncommitted transaction lives only in the
session until commit). -/
structure Txn where
  handle : Nat
  writes : List Doc
deriving DecidableEq, Repr

/-- Modelled from the spec: the state seen by the transactional core - the
session registry (`sessions`, keyed by the RequestContext identifier, as in
the adapter field `sessions: Record<number | string, ClientSession>`), a
counter of backend transactions begun so far (`nextHandle`), the committed
store, and the id allocator of the backend (`nextDocId`). -/
structure DBState where
  sessions : List (Nat × Txn)
  nextHandle : Nat
  committed : List Doc
  nextDocId : Nat
deriving DecidableEq, Repr

/-- Modelled from the spec: `getSession(ctx) -> TransactionHandle | None`
(section 4.2). -/
def getSession (c : Nat) (ss : List (Nat × Txn)) : Option Txn :=
  (ss.find? (fun e => e.1 == c)).map (fun e => e.2)

/-- Modelled from the spec: `setSession(ctx, handle)` (section 4.2); like a
JS record assignment it replaces any previous entry for the same key. -/
def setSession (c : Nat) (t : Txn) (ss : List (Nat × Txn)) : List (Nat × Txn) :=
  (c, t) :: ss.filter (fun e => !(e.1 == c))

/-- Modelled from the spec: `clearSession(ctx)` (section 4.2). -/
def clearSession (c : Nat) (ss : List (Nat × Txn)) : List (Nat × Txn) :=
  ss.filter (fun e => !(e.1 == c))

/-- Modelled from the spec: `initTransaction(ctx)` (section 4.3). Fails with
TransactionUnsupportedError when the backend was configured without
transaction support; otherwise reuses the open handle for `ctx` when one
exists, else begins a new backend transaction and stores it. -/
def initTransaction (supportsTx : Bool) (c : Nat) (s : DBState) :
    DBState × Except DBError Nat :=
  if supportsTx then
    match getSession c s.sessions with
    | some t => (s, Except.ok t.handle)
    | none =>
        ({ s with sessions := setSession c ⟨s.nextHandle, []⟩ s.sessions,
                  nextHandle := s.nextHandle + 1 },
         Except.ok s.nextHandle)
  else (s, Except.error DBError.TransactionUnsupportedError)

/-- Modelled from the spec: `commitTransaction(ctx)` (section 4.3): no-op
success when no session exists; otherwise the pending writes become
committed and the registry entry is cleared. -/
def commitTransaction (c : Nat) (s : DBState) : DBState × Except DBError Unit :=
  match getSession c s.sessions with
  | none => (s, Except.ok ())
  | some t =>
      ({ s with committed := t.writes ++ s.committed,
                sessions := clearSession c s.sessions },
       Except.ok ())

/-- Modelled from the spec: `rollbackTransaction(ctx)` (section 4.3): the
pending writes are discarded with the registry entry. -/
def rollbackTransaction (c : Nat) (s : DBState) : DBState × Except DBError Unit :=
  ({ s with sessions := clearSession c s.sessions }, Except.ok ())

/-- Modelled from the spec: a create executed standalone (no open
transaction resolved for the caller, section 4.4); the write is committed
individually. A failure after the write (the `throwAfterChange` test hook)
has no transaction to roll back into. -/
def standaloneCreate (throwAfterChange : Bool) (title : String) (s : DBState) :
    DBState × Except DBError Doc :=
  let d : Doc := ⟨s.nextDocId, title⟩
  let s2 : DBState :=
    { s with committed := d :: s.committed, nextDocId := s.nextDocId + 1 }
  if throwAfterChange then (s2, Except.error DBError.BackendError)
  else (s2, Except.ok d)

/-- Modelled from the spec: the create Operation Executor (section 4.4)
with the coordinator failure rule of section 4.3: it resolves the session
for the given context, writes inside the open transaction when one exists
(else standalone), and on failure inside an open transaction performs the
automatic rollback - the registry entry is cleared before the error
propagates. -/
def create (ctx : Option Nat) (throwAfterChange : Bool) (title : String)
    (s : DBState) : DBState × Except DBError Doc :=
  match ctx with
  | none => standaloneCreate throwAfterChange title s
  | some c =>
      match getSession c s.sessions with
      | none => standaloneCreate throwAfterChange title s
      | some t =>
          if throwAfterChange then
            ({ s with sessions := clearSession c s.sessions,
                      nextDocId := s.nextDocId + 1 },
             Except.error DBError.BackendError)
          else
            ({ s with sessions :=
                  setSession c ⟨t.handle, ⟨s.nextDocId, title⟩ :: t.writes⟩ s.sessions,
                      nextDocId := s.nextDocId + 1 },
             Except.ok ⟨s.nextDocId, title⟩)

/-- Modelled from the spec: the documents a read issued with context `ctx`
can observe (section 4.4): the committed store, plus the pending writes of
the open transaction of `ctx` when there is one; a read without a context
sees only committed data. -/
def visibleDocs (ctx : Option Nat) (s : DBState) : List Doc :=
  s.committed ++
    (match ctx with
     | none => []
     | some c =>
         match getSession c s.sessions with
         | none => []
         | some t => t.writes)

/-- Modelled from the spec: the findByID point lookup (section 4.4):
returns the matched document or NotFoundError. -/
def findByID (ctx : Option Nat) (i : Nat) (s : DBState) :
    DBState × Except DBError Doc :=
  (s, match (visibleDocs ctx s).find? (fun d => d.id == i) with
      | some d => Except.ok d
      | none => Except.error DBError.NotFoundError)

/-- One operation of the transactional core, for stating properties over
arbitrary later activity. -/
inductive Op where
  | init (supportsTx : Bool) (c : Nat)
  | create (ctx : Option Nat) (throwAfterChange : Bool) (title : String)
  | findByID (ctx : Option Nat) (i : Nat)
  | commit (c : Nat)
  | rollback (c : Nat)
deriving DecidableEq, Repr

/-- The state effect of one operation. -/
def applyOp (op : Op) (s : DBState) : DBState :=
  match op with
  | .init b c => (initTransaction b c s).1
  | .create ctx f ti => (create ctx f ti s).1
  | .findByID ctx i => (findByID ctx i s).1
  | .commit c => (commitTransaction c s).1
  | .rollback c => (rollbackTransaction c s).1

/-- The state effect of a sequence of operations, first op first. -/
def applyOps : List Op → DBState → DBState
  | [], s => s
  | op :: rest, s => applyOps rest (applyOp op s)

/-- Number of registry entries held for context `c`. -/
def sessionCount (c : Nat) (s : DBState) : Nat :=
  (s.sessions.filter (fun e => e.1 == c)).length

/-- Every document id stored anywhere in the state is below the id
allocator (true of every state the backend produces, since ids are
allocated from the counter). -/
def IdsBounded (s : DBState) : Prop :=
  (∀ d ∈ s.committed, d.id < s.nextDocId) ∧
    ∀ e ∈ s.sessions, ∀ d ∈ e.2.writes, d.id < s.nextDocId

instance (s : DBState) : Decidable (IdsBounded s) := by
  unfold IdsBounded; infer_instance

/-- Document id `i` can be observed only through the open transaction of
context `c`: it is below the allocator, absent from the committed store and
absent from the pending writes of every other context. -/
def Invisible (c : Nat) (i : Nat) (s : DBState) : Prop :=
  i < s.nextDocId ∧
    i ∉ s.committed.map Doc.id ∧
    ∀ e ∈ s.sessions, e.1 ≠ c → i ∉ e.2.writes.map Doc.id

instance (c i : Nat) (s : DBState) : Decidable (Invisible c i s) := by
  unfold Invisible; infer_instance

/-- Document id `i` is absent from the whole state (committed store and all
pending writes) and below the allocator. -/
def Absent (i : Nat) (s : DBState) : Prop :=
  i < s.nextDocId ∧
    i ∉ s.committed.map Doc.id ∧
    ∀ e ∈ s.sessions, i ∉ e.2.writes.map Doc.id

instance (i : Nat) (s : DBState) : Decidable (Absent i s) := by
  unfold Absent; infer_instance

/-- Modelled from the spec: a MigrationDefinition (section 3) - the name
plus its user-authored `up` body, abstracted to whether it succeeds. -/
structure MigrationDefinition where
  name : String
  upOk : Bool
deriving DecidableEq, Repr

/-- Modelled from the spec: a MigrationRecord
`{name: string, batch: integer, executedAt: timestamp}` (section 3). -/
structure MigrationRecord where
  name : String
  batch : Nat
  executedAt : Nat
deriving DecidableEq, Repr

/-- The maximum batch number among the persisted records (0 when none). -/
def maxBatch (records : List MigrationRecord) : Nat :=
  (records.map (fun r => r.batch)).foldr max 0

/-- Modelled from the spec: the ordered set of not-yet-applied definitions
(section 4.5) - the loaded definitions, in file-system order, minus those
whose name already has a record. -/
def pendingMigrations (defs : List MigrationDefinition)
    (records : List MigrationRecord) : List MigrationDefinition :=
  defs.filter (fun d => !((records.map (fun r => r.name)).contains d.name))

/-- Modelled from the spec: run each `up` in order inside the batch
transaction, inserting one record per definition; `none` when some `up`
fails (the batch is then rolled back by the caller). -/
def applyMigrations (batch now : Nat) :
    List MigrationDefinition → List MigrationRecord → Option (List MigrationRecord)
  | [], acc => some acc
  | d :: rest, acc =>
      if d.upOk then applyMigrations batch now rest (acc ++ [⟨d.name, batch, now⟩])
      else none

/-- Modelled from the spec: `migrate()` (section 4.5): computes the pending
definitions, opens one transaction for the batch (batch = previous max
batch + 1), applies each `up` in order inside it and inserts one record per
definition, then commits; any `up` failure rolls the entire batch back, so
the records are left unchanged. -/
def migrate (now : Nat) (defs : List MigrationDefinition)
    (records : List MigrationRecord) :
    List MigrationRecord × Except DBError Unit :=
  let pending := pendingMigrations defs records
  let batch := maxBatch records + 1
  match applyMigrations batch now pending records with
  | some recs => (recs, Except.ok ())
  | none => (records, Except.error DBError.MigrationError)

/-- Modelled from the spec: `migrateFresh()` (section 4.5): requires the
explicit acknowledgment flag, drops all managed schema objects (including
every migration record) and replays every migration from scratch as
batch 1. -/
def migrateFresh (forceAcceptWarning : Bool) (now : Nat)
    (defs : List MigrationDefinition) (records : List MigrationRecord) :
    List MigrationRecord × Except DBError Unit :=
  if forceAcceptWarning then
    match applyMigrations 1 now defs [] with
    | some recs => (recs, Except.ok ())
    | none => ([], Except.error DBError.MigrationError)
  else (records, Except.error DBError.FreshNotAcknowledged)

/-- A mongodb TransactionOptions object, embedded as a plain options bag;
the adapter never inspects it, only stores it. -/
structure TransactionOptions where
  fields : List (String × String)
deriving DecidableEq, Repr

/-- The value of the `transactionOptions` argument of `Args`
(`TransactionOptions | false` in the source). -/
inductive TransactionOptionsArg where
  | fls
  | opts (o : TransactionOptions)
deriving DecidableEq, Repr

/-- The arguments of `mongooseAdapter` relevant to the adapter state
(source `Args`); `none` means the caller omitted the field, so the
destructuring default applies. UI/schema configuration fields that the
adapter merely stores are left out. -/
structure AdapterArgs where
  autoPluralization : Option Bool
  disableIndexHints : Option Bool
  migrationDir : Option String
  transactionOptions : Option TransactionOptionsArg
deriving DecidableEq, Repr

/-- The adapter fields produced by `createDatabaseAdapter` that the claims
concern; `beginTransactionDefined` records whether the `beginTransaction`
field was set to the real implementation (true) or `undefined` (false). -/
structure AdapterRecord where
  autoPluralization : Bool
  disableIndexHints : Bool
  sessions : List (Nat × Txn)
  transactionOptions : Option TransactionOptions
  beginTransactionDefined : Bool
  migrationDir : String
  defaultIDType : String
deriving DecidableEq, Repr

/-- `path.resolve(cwd, p)` for the relative paths the adapter resolves. -/
def resolvePath (cwd p : String) : String := cwd ++ "/" ++ p

/-- JS truthiness of an optional string: false for `undefined` and for the
empty string. -/
def strTruthy : Option String → Bool
  | none => false
  | some s => !(s == "")

/-- Embeds `findMigrationDir` of the adapter source: uses the argument when
truthy, else the first of `src/migrations`, `dist/migrations`,
`migrations` (resolved against the working directory) that exists,
defaulting to `src/migrations`. `existsSync` stands for `fs.existsSync`. -/
def findMigrationDir (migrationDir : Option String) (cwd : String)
    (existsSync : String → Bool) : String :=
  let srcDir := resolvePath cwd "src/migrations"
  let distDir := resolvePath cwd "dist/migrations"
  let relativeMigrations := resolvePath cwd "migrations"
  if strTruthy migrationDir then migrationDir.getD ""
  else if existsSync srcDir then srcDir
  else if existsSync distDir then distDir
  else if existsSync relativeMigrations then relativeMigrations
  else srcDir

/-- Embeds the `mongooseAdapter` constructor of the adapter source:
destructuring defaults (`autoPluralization = true`,
`disableIndexHints = false`, `transactionOptions = \x7b\x7d`), the stored
`transactionOptions` (`undefined` exactly when `false` was passed), the
`beginTransaction` field (`transactionOptions ? beginTransaction :
undefined` - an options object is always truthy), the empty initial
`sessions` registry, and the resolved `migrationDir`. -/
def mongooseAdapter (args : AdapterArgs) (cwd : String)
    (existsSync : String → Bool) : AdapterRecord :=
  let transactionOptions :=
    args.transactionOptions.getD (TransactionOptionsArg.opts ⟨[]⟩)
  { autoPluralization := args.autoPluralization.getD true
    disableIndexHints := args.disableIndexHints.getD false
    sessions := []
    transactionOptions :=
      match transactionOptions with
      | .fls => none
      | .opts o => some o
    beginTransactionDefined :=
      match transactionOptions with
      | .fls => false
      | .opts _ => true
    migrationDir := findMigrationDir args.migrationDir cwd existsSync
    defaultIDType := "text" }

/-! ### Registry lemmas -/

lemma mem_clearSession {e : Nat × Txn} {c : Nat} {ss : List (Nat × Txn)} :
    e ∈ clearSession c ss ↔ e ∈ ss ∧ e.1 ≠ c := by
  simp [clearSession, List.mem_filter]

lemma mem_setSession {e : Nat × Txn} {c : Nat} {t : Txn} {ss : List (Nat × Txn)}
    (h : e ∈ setSession c t ss) : e = (c, t) ∨ (e ∈ ss ∧ e.1 ≠ c) := by
  simp only [setSession, List.mem_cons, List.mem_filter] at h
  rcases h with h | ⟨hm, hne⟩
  · exact Or.inl h
  · exact Or.inr ⟨hm, by simpa using hne⟩

lemma getSession_clearSession_self (c : Nat) (ss : List (Nat × Txn)) :
    getSession c (clearSession c ss) = none := by
  unfold getSession
  have h : (clearSession c ss).find? (fun e => e.1 == c) = none := by
    rw [List.find?_eq_none]
    intro e he
    rcases mem_clearSession.1 he with ⟨_, hne⟩
    simpa using hne
  rw [h]
  rfl

lemma getSession_mem {c : Nat} {ss : List (Nat × Txn)} {t : Txn}
    (h : getSession c ss = some t) : (c, t) ∈ ss := by
  unfold getSession at h
  cases hf : ss.find? (fun e => e.1 == c) with
  | none => simp [hf] at h
  | some e =>
      have hp := List.find?_some hf
      have hm := List.mem_of_find?_eq_some hf
      rw [hf] at h
      obtain ⟨e1, e2⟩ := e
      simp at hp h
      subst hp
      subst h
      exact hm

/-- Count of registry entries for a key, at the list level. -/
def countKey (c : Nat) (ss : List (Nat × Txn)) : Nat :=
  (ss.filter (fun e => e.1 == c)).length

lemma sessionCount_eq_countKey (c : Nat) (s : DBState) :
    sessionCount c s = countKey c s.sessions := rfl

lemma countKey_clearSession_le (c c' : Nat) (ss : List (Nat × Txn)) :
    countKey c (clearSession c' ss) ≤ countKey c ss :=
  ((List.filter_sublist ss).filter _).length_le

lemma countKey_clearSession_self (c : Nat) (ss : List (Nat × Txn)) :
    countKey c (clearSession c ss) = 0 := by
  unfold countKey
  rw [List.length_eq_zero]
  rw [List.filter_eq_nil_iff]
  intro e he
  rcases mem_clearSession.1 he with ⟨_, hne⟩
  simpa using hne

lemma countKey_setSession_le_one {c : Nat} (c' : Nat) (t : Txn)
    {ss : List (Nat × Txn)} (h : countKey c ss ≤ 1) :
    countKey c (setSession c' t ss) ≤ 1 := by
  by_cases hc : c = c'
  · subst hc
    have h0 := countKey_clearSession_self c ss
    unfold countKey setSession at *
    rw [List.filter_cons_of_pos (by simp)]
    simp only [List.length_cons]
    unfold clearSession at h0
    omega
  · have hle := countKey_clearSession_le c c' ss
    unfold countKey setSession at *
    rw [List.filter_cons_of_neg (by simp [Ne.symm hc])]
    unfold clearSession at hle
    omega

/-! ### Visibility lemmas -/

lemma not_visible_of_absent {i : Nat} {s : DBState} (h : Absent i s)
    (ctx : Option Nat) : ∀ d ∈ visibleDocs ctx s, d.id ≠ i := by
  obtain ⟨-, hc, hs⟩ := h
  intro d hd he
  unfold visibleDocs at hd
  rcases List.mem_append.1 hd with hcm | hp
  · exact hc (he ▸ List.mem_map_of_mem Doc.id hcm)
  · cases ctx with
    | none => simp at hp
    | some c =>
        cases hg : getSession c s.sessions with
        | none => simp [hg] at hp
        | some t =>
            simp only [hg] at hp
            exact hs (c, t) (getSession_mem hg) (he ▸ List.mem_map_of_mem Doc.id hp)

lemma not_visible_of_invisible {c i : Nat} {s : DBState} (h : Invisible c i s)
    {ctx : Option Nat} (hctx : ctx ≠ some c) :
    ∀ d ∈ visibleDocs ctx s, d.id ≠ i := by
  obtain ⟨-, hc, hs⟩ := h
  intro d hd he
  unfold visibleDocs at hd
  rcases List.mem_append.1 hd with hcm | hp
  · exact hc (he ▸ List.mem_map_of_mem Doc.id hcm)
  · cases ctx with
    | none => simp at hp
    | some c' =>
        cases hg : getSession c' s.sessions with
        | none => simp [hg] at hp
        | some t =>
            simp only [hg] at hp
            have hne : c' ≠ c := fun hh => hctx (by rw [hh])
            exact hs (c', t) (getSession_mem hg) hne
              (he ▸ List.mem_map_of_mem Doc.id hp)

lemma findByID_err_of_not_visible {ctx : Option Nat} {i : Nat} {s : DBState}
    (hvis : ∀ d ∈ visibleDocs ctx s, d.id ≠ i) :
    (findByID ctx i s).2 = Except.error DBError.NotFoundError := by
  unfold findByID
  have h : (visibleDocs ctx s).find? (fun d => d.id == i) = none := by
    rw [List.find?_eq_none]
    intro d hd
    simpa using hvis d hd
  rw [h]

lemma findByID_ok_of_mem_committed {d : Doc} {s : DBState} (ctx : Option Nat)
    (h : d ∈ s.committed) :
    ∃ d', (findByID ctx d.id s).2 = Except.ok d' ∧ d'.id = d.id := by
  have hv : d ∈ visibleDocs ctx s := List.mem_append_left _ h
  unfold findByID
  cases hf : (visibleDocs ctx s).find? (fun x => x.id == d.id) with
  | none =>
      exact absurd (by simp : (d.id == d.id) = true)
        (List.find?_eq_none.1 hf d hv)
  | some d' =>
      have hp := List.find?_some hf
      exact ⟨d', rfl, by simpa using hp⟩

/-! ### Step preservation lemmas -/

lemma committed_applyOp_mono (op : Op) (s : DBState) {d : Doc}
    (h : d ∈ s.committed) : d ∈ (applyOp op s).committed := by
  cases op with
  | init b c =>
      unfold applyOp initTransaction
      cases b with
      | false => simpa using h
      | true =>
          cases hg : getSession c s.sessions <;> simpa [hg] using h
  | create ctx f ti =>
      unfold applyOp create standaloneCreate
      cases ctx with
      | none => cases f <;> simpa using List.mem_cons_of_mem _ h
      | some c =>
          cases hg : getSession c s.sessions with
          | none => cases f <;> simpa [hg] using List.mem_cons_of_mem _ h
          | some t => cases f <;> simpa [hg] using h
  | findByID ctx i => simpa [applyOp, findByID] using h
  | commit c =>
      unfold applyOp commitTransaction
      cases hg : getSession c s.sessions with
      | none => simpa [hg] using h
      | some t => simpa [hg] using List.mem_append_right _ h
  | rollback c => simpa [applyOp, rollbackTransaction] using h

lemma committed_applyOps_mono (ops : List Op) {s : DBState} {d : Doc}
    (h : d ∈ s.committed) : d ∈ (applyOps ops s).committed := by
  induction ops generalizing s with
  | nil => simpa [applyOps] using h
  | cons op rest ih => exact ih (committed_applyOp_mono op s h)

/-! ### State shape of each operation -/

lemma standaloneCreate_fst (f : Bool) (ti : String) (s : DBState) :
    (standaloneCreate f ti s).1 =
      { s with committed := ⟨s.nextDocId, ti⟩ :: s.committed,
               nextDocId := s.nextDocId + 1 } := by
  cases f <;> rfl

lemma applyOp_init_false (c : Nat) (s : DBState) :
    applyOp (.init false c) s = s := by
  simp [applyOp, initTransaction]

lemma applyOp_init_reuse {c : Nat} {s : DBState} {t : Txn}
    (h : getSession c s.sessions = some t) :
    applyOp (.init true c) s = s := by
  simp [applyOp, initTransaction, h]

lemma applyOp_init_new {c : Nat} {s : DBState}
    (h : getSession c s.sessions = none) :
    applyOp (.init true c) s =
      { s with sessions := setSession c ⟨s.nextHandle, []⟩ s.sessions,
               nextHandle := s.nextHandle + 1 } := by
  simp [applyOp, initTransaction, h]

lemma applyOp_create_noctx (f : Bool) (ti : String) (s : DBState) :
    applyOp (.create none f ti) s = (standaloneCreate f ti s).1 := by
  simp [applyOp, create]

lemma applyOp_create_nosession {c : Nat} {s : DBState} (f : Bool) (ti : String)
    (h : getSession c s.sessions = none) :
    applyOp (.create (some c) f ti) s = (standaloneCreate f ti s).1 := by
  simp [applyOp, create, h]

lemma applyOp_create_fail {c : Nat} {s : DBState} {t : Txn} (ti : String)
    (h : getSession c s.sessions = some t) :
    applyOp (.create (some c) true ti) s =
      { s with sessions := clearSession c s.sessions,
               nextDocId := s.nextDocId + 1 } := by
  simp [applyOp, create, h]

lemma applyOp_create_ok {c : Nat} {s : DBState} {t : Txn} (ti : String)
    (h : getSession c s.sessions = some t) :
    applyOp (.create (some c) false ti) s =
      { s with sessions :=
            setSession c ⟨t.handle, ⟨s.nextDocId, ti⟩ :: t.writes⟩ s.sessions,
               nextDocId := s.nextDocId + 1 } := by
  simp [applyOp, create, h]

lemma applyOp_findByID (ctx : Option Nat) (i : Nat) (s : DBState) :
    applyOp (.findByID ctx i) s = s := by
  simp [applyOp, findByID]

lemma applyOp_commit_none {c : Nat} {s : DBState}
    (h : getSession c s.sessions = none) :
    applyOp (.commit c) s = s := by
  simp [applyOp, commitTransaction, h]

lemma applyOp_commit_some {c : Nat} {s : DBState} {t : Txn}
    (h : getSession c s.sessions = some t) :
    applyOp (.commit c) s =
      { s with committed := t.writes ++ s.committed,
               sessions := clearSession c s.sessions } := by
  simp [applyOp, commitTransaction, h]

lemma applyOp_rollback (c : Nat) (s : DBState) :
    applyOp (.rollback c) s =
      { s with sessions := clearSession c s.sessions } := by
  simp [applyOp, rollbackTransaction]

/-! ### Preservation of absence and invisibility -/

lemma absent_standaloneCreate {i : Nat} {s : DBState} (f : Bool) (ti : String)
    (h : Absent i s) : Absent i (standaloneCreate f ti s).1 := by
  obtain ⟨hb, hc, hs⟩ := h
  rw [standaloneCreate_fst]
  refine ⟨Nat.lt_succ_of_lt hb, ?_, hs⟩
  simp only [List.map_cons, List.mem_cons]
  rintro (he | he)
  · omega
  · exact hc he

lemma absent_applyOp {i : Nat} (op : Op) (s : DBState)
    (h : Absent i s) : Absent i (applyOp op s) := by
  obtain ⟨hb, hc, hs⟩ := h
  cases op with
  | init b c =>
      cases b with
      | false => rw [applyOp_init_false]; exact ⟨hb, hc, hs⟩
      | true =>
          cases hg : getSession c s.sessions with
          | some t => rw [applyOp_init_reuse hg]; exact ⟨hb, hc, hs⟩
          | none =>
              rw [applyOp_init_new hg]
              refine ⟨hb, hc, fun e he => ?_⟩
              rcases mem_setSession he with he | ⟨he, -⟩
              · subst he; simp
              · exact hs e he
  | create ctx f ti =>
      cases ctx with
      | none =>
          rw [applyOp_create_noctx]
          exact absent_standaloneCreate f ti ⟨hb, hc, hs⟩
      | some c =>
          cases hg : getSession c s.sessions with
          | none =>
              rw [applyOp_create_nosession f ti hg]
              exact absent_standaloneCreate f ti ⟨hb, hc, hs⟩
          | some t =>
              cases f with
              | true =>
                  rw [applyOp_create_fail ti hg]
                  exact ⟨Nat.lt_succ_of_lt hb, hc,
                    fun e he => hs e (mem_clearSession.1 he).1⟩
              | false =>
                  rw [applyOp_create_ok ti hg]
                  refine ⟨Nat.lt_succ_of_lt hb, hc, fun e he => ?_⟩
                  rcases mem_setSession he with he | ⟨he, -⟩
                  · subst he
                    simp only [List.map_cons, List.mem_cons]
                    rintro (hx | hx)
                    · omega
                    · exact hs (c, t) (getSession_mem hg) hx
                  · exact hs e he
  | findByID ctx j => rw [applyOp_findByID]; exact ⟨hb, hc, hs⟩
  | commit c =>
      cases hg : getSession c s.sessions with
      | none => rw [applyOp_commit_none hg]; exact ⟨hb, hc, hs⟩
      | some t =>
          rw [applyOp_commit_some hg]
          refine ⟨hb, ?_, fun e he => hs e (mem_clearSession.1 he).1⟩
          simp only [List.map_append, List.mem_append]
          rintro (hx | hx)
          · exact hs (c, t) (getSession_mem hg) hx
          · exact hc hx
  | rollback c =>
      rw [applyOp_rollback]
      exact ⟨hb, hc, fun e he => hs e (mem_clearSession.1 he).1⟩

lemma absent_applyOps {i : Nat} (ops : List Op) {s : DBState}
    (h : Absent i s) : Absent i (applyOps ops s) := by
  induction ops generalizing s with
  | nil => exact h
  | cons op rest ih => exact ih (absent_applyOp op s h)

lemma invisible_standaloneCreate {c i : Nat} {s : DBState} (f : Bool)
    (ti : String) (h : Invisible c i s) :
    Invisible c i (standaloneCreate f ti s).1 := by
  obtain ⟨hb, hc, hs⟩ := h
  rw [standaloneCreate_fst]
  refine ⟨Nat.lt_succ_of_lt hb, ?_, hs⟩
  simp only [List.map_cons, List.mem_cons]
  rintro (he | he)
  · omega
  · exact hc he

lemma invisible_applyOp {c i : Nat} (op : Op) (s : DBState)
    (h : Invisible c i s) (hop : op ≠ Op.commit c) :
    Invisible c i (applyOp op s) := by
  obtain ⟨hb, hc, hs⟩ := h
  cases op with
  | init b c' =>
      cases b with
      | false => rw [applyOp_init_false]; exact ⟨hb, hc, hs⟩
      | true =>
          cases hg : getSession c' s.sessions with
          | some t => rw [applyOp_init_reuse hg]; exact ⟨hb, hc, hs⟩
          | none =>
              rw [applyOp_init_new hg]
              refine ⟨hb, hc, fun e he hne => ?_⟩
              rcases mem_setSession he with he | ⟨he, -⟩
              · subst he; simp
              · exact hs e he hne
  | create ctx f ti =>
      cases ctx with
      | none =>
          rw [applyOp_create_noctx]
          exact invisible_standaloneCreate f ti ⟨hb, hc, hs⟩
      | some c' =>
          cases hg : getSession c' s.sessions with
          | none =>
              rw [applyOp_create_nosession f ti hg]
              exact invisible_standaloneCreate f ti ⟨hb, hc, hs⟩
          | some t =>
              cases f with
              | true =>
                  rw [applyOp_create_fail ti hg]
                  exact ⟨Nat.lt_succ_of_lt hb, hc,
                    fun e he hne => hs e (mem_clearSession.1 he).1 hne⟩
              | false =>
                  rw [applyOp_create_ok ti hg]
                  refine ⟨Nat.lt_succ_of_lt hb, hc, fun e he hne => ?_⟩
                  rcases mem_setSession he with he | ⟨he, -⟩
                  · subst he
                    simp only [List.map_cons, List.mem_cons]
                    rintro (hx | hx)
                    · omega
                    · exact hs (c', t) (getSession_mem hg) (by simpa using hne) hx
                  · exact hs e he hne
  | findByID ctx j => rw [applyOp_findByID]; exact ⟨hb, hc, hs⟩
  | commit c' =>
      have hcc : c' ≠ c := fun hh => hop (by rw [hh])
      cases hg : getSession c' s.sessions with
      | none => rw [applyOp_commit_none hg]; exact ⟨hb, hc, hs⟩
      | some t =>
          rw [applyOp_commit_some hg]
          refine ⟨hb, ?_, fun e he hne => hs e (mem_clearSession.1 he).1 hne⟩
          simp only [List.map_append, List.mem_append]
          rintro (hx | hx)
          · exact hs (c', t) (getSession_mem hg) hcc hx
          · exact hc hx
  | rollback c' =>
      rw [applyOp_rollback]
      exact ⟨hb, hc, fun e he hne => hs e (mem_clearSession.1 he).1 hne⟩

lemma invisible_applyOps {c i : Nat} (ops : List Op) {s : DBState}
    (h : Invisible c i s) (hops : ∀ op ∈ ops, op ≠ Op.commit c) :
    Invisible c i (applyOps ops s) := by
  induction ops generalizing s with
  | nil => exact h
  | cons op rest ih =>
      exact ih (invisible_applyOp op s h (hops op (List.mem_cons_self op rest)))
        (fun o ho => hops o (List.mem_cons_of_mem _ ho))

lemma sessionCount_applyOp (op : Op) (s : DBState) (c : Nat)
    (h : sessionCount c s ≤ 1) : sessionCount c (applyOp op s) ≤ 1 := by
  cases op with
  | init b c' =>
      cases b with
      | false => rw [applyOp_init_false]; exact h
      | true =>
          cases hg : getSession c' s.sessions with
          | some t => rw [applyOp_init_reuse hg]; exact h
          | none =>
              rw [applyOp_init_new hg]
              exact countKey_setSession_le_one _ _ h
  | create ctx f ti =>
      cases ctx with
      | none => rw [applyOp_create_noctx, standaloneCreate_fst]; exact h
      | some c' =>
          cases hg : getSession c' s.sessions with
          | none =>
              rw [applyOp_create_nosession f ti hg, standaloneCreate_fst]
              exact h
          | some t =>
              cases f with
              | true =>
                  rw [applyOp_create_fail ti hg]
                  exact le_trans (countKey_clearSession_le c c' s.sessions) h
              | false =>
                  rw [applyOp_create_ok ti hg]
                  exact countKey_setSession_le_one _ _ h
  | findByID ctx i => rw [applyOp_findByID]; exact h
  | commit c' =>
      cases hg : getSession c' s.sessions with
      | none => rw [applyOp_commit_none hg]; exact h
      | some t =>
          rw [applyOp_commit_some hg]
          exact le_trans (countKey_clearSession_le c c' s.sessions) h
  | rollback c' =>
      rw [applyOp_rollback]
      exact le_trans (countKey_clearSession_le c c' s.sessions) h

/-! ### Migration engine lemmas -/

lemma applyMigrations_some {batch now : Nat} :
    ∀ (l : List MigrationDefinition) (acc r : List MigrationRecord),
      applyMigrations batch now l acc = some r →
      r = acc ++ l.map (fun d => ⟨d.name, batch, now⟩) := by
  intro l
  induction l with
  | nil =>
      intro acc r h
      simp [applyMigrations] at h
      simp [← h]
  | cons d rest ih =>
      intro acc r h
      unfold applyMigrations at h
      cases hd : d.upOk with
      | false => rw [hd] at h; simp at h
      | true =>
          rw [hd] at h
          simp only [if_pos] at h
          rw [ih _ _ h]
          simp

lemma applyMigrations_none {batch now : Nat} :
    ∀ (l : List MigrationDefinition) (acc : List MigrationRecord),
      (∃ d ∈ l, d.upOk = false) → applyMigrations batch now l acc = none := by
  intro l
  induction l with
  | nil => rintro acc ⟨d, hd, -⟩; simp at hd
  | cons d rest ih =>
      rintro acc ⟨d0, hd0, hup⟩
      unfold applyMigrations
      rcases List.mem_cons.1 hd0 with he | he
      · subst he; simp [hup]
      · cases hd : d.upOk with
        | false => simp
        | true => simp only [if_pos]; exact ih _ ⟨d0, he, hup⟩

/-! ### Claim theorems -/

/-- C1: for every RequestContext, at most one transaction handle exists in
the session registry at any time - every operation of the core preserves
the at-most-one-entry invariant - and a call to initTransaction while the
context already holds an open handle returns that same handle with the
state unchanged, so no new backend transaction is begun. -/
theorem initTransaction_reuse_and_registry_unique
    (s : DBState) (c : Nat) (t : Txn)
    (hs : getSession c s.sessions = some t) :
    initTransaction true c s = (s, Except.ok t.handle) ∧
    ∀ (op : Op) (c' : Nat), sessionCount c' s ≤ 1 →
      sessionCount c' (applyOp op s) ≤ 1 := by
  refine ⟨?_, fun op c' h => sessionCount_applyOp op s c' h⟩
  simp [initTransaction, hs]

/-- Witness for C1: a state holding one open session for context 1. -/
theorem initTransaction_reuse_and_registry_unique_witness :
    getSession 1 (DBState.mk [(1, ⟨7, []⟩)] 8 [] 0).sessions = some ⟨7, []⟩ ∧
    (initTransaction true 1 (DBState.mk [(1, ⟨7, []⟩)] 8 [] 0)
        = (DBState.mk [(1, ⟨7, []⟩)] 8 [] 0, Except.ok 7) ∧
      ∀ (op : Op) (c' : Nat),
        sessionCount c' (DBState.mk [(1, ⟨7, []⟩)] 8 [] 0) ≤ 1 →
        sessionCount c' (applyOp op (DBState.mk [(1, ⟨7, []⟩)] 8 [] 0)) ≤ 1) :=
  ⟨by decide,
   initTransaction_reuse_and_registry_unique
     (DBState.mk [(1, ⟨7, []⟩)] 8 [] 0) 1 ⟨7, []⟩ (by decide)⟩

/-- C2: after commitTransaction succeeds for context c, every write
performed under c in that transaction is visible to every subsequent read,
issued with any context or none, and getSession returns none for c (the
registry entry is removed). -/
theorem commitTransaction_publishes_writes
    (s : DBState) (c : Nat) (t : Txn) (d : Doc)
    (hs : getSession c s.sessions = some t) (hd : d ∈ t.writes) :
    (commitTransaction c s).2 = Except.ok () ∧
    getSession c (commitTransaction c s).1.sessions = none ∧
    ∀ (ops : List Op) (ctx' : Option Nat),
      ∃ d', (findByID ctx' d.id (applyOps ops (commitTransaction c s).1)).2
              = Except.ok d' ∧ d'.id = d.id := by
  have hstate : (commitTransaction c s).1 =
      { s with committed := t.writes ++ s.committed,
               sessions := clearSession c s.sessions } := by
    simp [commitTransaction, hs]
  refine ⟨by simp [commitTransaction, hs], ?_, ?_⟩
  · rw [hstate]
    exact getSession_clearSession_self c s.sessions
  · intro ops ctx'
    have hmem : d ∈ (applyOps ops (commitTransaction c s).1).committed := by
      apply committed_applyOps_mono
      rw [hstate]
      exact List.mem_append_left _ hd
    exact findByID_ok_of_mem_committed ctx' hmem

/-- Witness for C2: one pending write under context 1, committed and then
read back without a context. -/
theorem commitTransaction_publishes_writes_witness :
    getSession 1 (DBState.mk [(1, ⟨7, [⟨0, "title"⟩]⟩)] 8 [] 1).sessions
        = some ⟨7, [⟨0, "title"⟩]⟩ ∧
    (⟨0, "title"⟩ : Doc) ∈ (Txn.mk 7 [⟨0, "title"⟩]).writes ∧
    ((commitTransaction 1 (DBState.mk [(1, ⟨7, [⟨0, "title"⟩]⟩)] 8 [] 1)).2
        = Except.ok () ∧
      getSession 1
          (commitTransaction 1
            (DBState.mk [(1, ⟨7, [⟨0, "title"⟩]⟩)] 8 [] 1)).1.sessions = none ∧
      ∀ (ops : List Op) (ctx' : Option Nat),
        ∃ d', (findByID ctx' (Doc.mk 0 "title").id
                (applyOps ops
                  (commitTransaction 1
                    (DBState.mk [(1, ⟨7, [⟨0, "title"⟩]⟩)] 8 [] 1)).1)).2
                = Except.ok d' ∧ d'.id = (Doc.mk 0 "title").id) :=
  ⟨by decide, by decide,
   commitTransaction_publishes_writes
     (DBState.mk [(1, ⟨7, [⟨0, "title"⟩]⟩)] 8 [] 1) 1 ⟨7, [⟨0, "title"⟩]⟩
     ⟨0, "title"⟩ (by decide) (by decide)⟩

/-- C3: when an Operation Executor call fails under an open transaction,
the transaction is rolled back automatically and the registry entry is
cleared before the error propagates, so every prior write of the context
in that transaction is invisible to all subsequent reads, and the context
reflects no open transaction afterward. -/
theorem failed_operation_rolls_back
    (s : DBState) (c : Nat) (t : Txn) (title : String)
    (hs : getSession c s.sessions = some t)
    (hw : ∀ d ∈ t.writes, Invisible c d.id s) :
    (create (some c) true title s).2 = Except.error DBError.BackendError ∧
    getSession c (create (some c) true title s).1.sessions = none ∧
    ∀ d ∈ t.writes, ∀ (ops : List Op) (ctx' : Option Nat),
      (findByID ctx' d.id (applyOps ops (create (some c) true title s).1)).2
        = Except.error DBError.NotFoundError := by
  have hstate : (create (some c) true title s).1 =
      { s with sessions := clearSession c s.sessions,
               nextDocId := s.nextDocId + 1 } := by
    simp [create, hs]
  refine ⟨by simp [create, hs], ?_, ?_⟩
  · rw [hstate]
    exact getSession_clearSession_self c s.sessions
  · intro d hd ops ctx'
    have habs : Absent d.id (create (some c) true title s).1 := by
      obtain ⟨hb, hc, hss⟩ := hw d hd
      rw [hstate]
      refine ⟨Nat.lt_succ_of_lt hb, hc, fun e he => ?_⟩
      rcases mem_clearSession.1 he with ⟨hm, hne⟩
      exact hss e hm hne
    exact findByID_err_of_not_visible
      (not_visible_of_absent (absent_applyOps ops habs) ctx')

/-- Witness for C3: a failing create under context 1 whose transaction
already holds one write. -/
theorem failed_operation_rolls_back_witness :
    getSession 1 (DBState.mk [(1, ⟨7, [⟨0, "title"⟩]⟩)] 8 [] 1).sessions
        = some ⟨7, [⟨0, "title"⟩]⟩ ∧
    (∀ d ∈ (Txn.mk 7 [⟨0, "title"⟩]).writes,
      Invisible 1 d.id (DBState.mk [(1, ⟨7, [⟨0, "title"⟩]⟩)] 8 [] 1)) ∧
    ((create (some 1) true "title"
          (DBState.mk [(1, ⟨7, [⟨0, "title"⟩]⟩)] 8 [] 1)).2
        = Except.error DBError.BackendError ∧
      getSession 1
          (create (some 1) true "title"
            (DBState.mk [(1, ⟨7, [⟨0, "title"⟩]⟩)] 8 [] 1)).1.sessions = none ∧
      ∀ d ∈ (Txn.mk 7 [⟨0, "title"⟩]).writes,
        ∀ (ops : List Op) (ctx' : Option Nat),
          (findByID ctx' d.id
              (applyOps ops
                (create (some 1) true "title"
                  (DBState.mk [(1, ⟨7, [⟨0, "title"⟩]⟩)] 8 [] 1)).1)).2
            = Except.error DBError.NotFoundError) :=
  ⟨by decide, by decide,
   failed_operation_rolls_back
     (DBState.mk [(1, ⟨7, [⟨0, "title"⟩]⟩)] 8 [] 1) 1 ⟨7, [⟨0, "title"⟩]⟩
     "title" (by decide) (by decide)⟩

/-- C4: a document created under an open, uncommitted transaction for
context c is not observed by a point read issued with a different context
or with no context - the read fails with NotFoundError - for as long as
the transaction of c stays uncommitted (that is, after any sequence of
operations that does not commit c). -/
theorem uncommitted_create_invisible_to_other_contexts
    (s : DBState) (c : Nat) (t : Txn) (title : String)
    (hs : getSession c s.sessions = some t) (hb : IdsBounded s) :
    (create (some c) false title s).2 = Except.ok ⟨s.nextDocId, title⟩ ∧
    ∀ (ops : List Op), (∀ op ∈ ops, op ≠ Op.commit c) →
      ∀ (ctx' : Option Nat), ctx' ≠ some c →
        (findByID ctx' s.nextDocId
            (applyOps ops (create (some c) false title s).1)).2
          = Except.error DBError.NotFoundError := by
  have hstate : (create (some c) false title s).1 =
      { s with sessions :=
            setSession c ⟨t.handle, ⟨s.nextDocId, title⟩ :: t.writes⟩ s.sessions,
               nextDocId := s.nextDocId + 1 } := by
    simp [create, hs]
  refine ⟨by simp [create, hs], ?_⟩
  intro ops hops ctx' hctx
  have hinv : Invisible c s.nextDocId (create (some c) false title s).1 := by
    rw [hstate]
    refine ⟨Nat.lt_succ_self _, ?_, fun e he hne => ?_⟩
    · intro hmem
      rcases List.mem_map.1 hmem with ⟨d0, hd0, hid⟩
      have := hb.1 d0 hd0
      omega
    · rcases mem_setSession he with he | ⟨he, -⟩
      · exact absurd (show e.1 = c by rw [he]) hne
      · intro hmem
        rcases List.mem_map.1 hmem with ⟨d0, hd0, hid⟩
        have := hb.2 e he d0 hd0
        omega
  exact findByID_err_of_not_visible
    (not_visible_of_invisible (invisible_applyOps ops hinv hops) hctx)

/-- Witness for C4: a create under context 1 followed by another context
opening its own transaction, read back without a context. -/
theorem uncommitted_create_invisible_witness :
    getSession 1 (DBState.mk [(1, ⟨7, []⟩)] 8 [] 0).sessions = some ⟨7, []⟩ ∧
    IdsBounded (DBState.mk [(1, ⟨7, []⟩)] 8 [] 0) ∧
    ((create (some 1) false "title" (DBState.mk [(1, ⟨7, []⟩)] 8 [] 0)).2
        = Except.ok ⟨(DBState.mk [(1, ⟨7, []⟩)] 8 [] 0).nextDocId, "title"⟩ ∧
      ∀ (ops : List Op), (∀ op ∈ ops, op ≠ Op.commit 1) →
        ∀ (ctx' : Option Nat), ctx' ≠ some 1 →
          (findByID ctx' (DBState.mk [(1, ⟨7, []⟩)] 8 [] 0).nextDocId
              (applyOps ops
                (create (some 1) false "title"
                  (DBState.mk [(1, ⟨7, []⟩)] 8 [] 0)).1)).2
            = Except.error DBError.NotFoundError) :=
  ⟨by decide, by decide,
   uncommitted_create_invisible_to_other_contexts
     (DBState.mk [(1, ⟨7, []⟩)] 8 [] 0) 1 ⟨7, []⟩ "title"
     (by decide) (by decide)⟩

/-- C5: on a backend configured without transaction support the adapter
leaves beginTransaction undefined, and every call to initTransaction then
fails with TransactionUnsupportedError, leaving the state unchanged so the
caller proceeds transaction-less. -/
theorem unsupported_backend_initTransaction_fails
    (args : AdapterArgs) (cwd : String) (ex : String → Bool)
    (h : args.transactionOptions = some TransactionOptionsArg.fls) :
    (mongooseAdapter args cwd ex).beginTransactionDefined = false ∧
    ∀ (c : Nat) (s : DBState),
      initTransaction (mongooseAdapter args cwd ex).beginTransactionDefined c s
        = (s, Except.error DBError.TransactionUnsupportedError) := by
  have hb : (mongooseAdapter args cwd ex).beginTransactionDefined = false := by
    simp [mongooseAdapter, h]
  exact ⟨hb, fun c s => by rw [hb]; simp [initTransaction]⟩

/-- Witness for C5: an adapter constructed with transactionOptions false. -/
theorem unsupported_backend_initTransaction_fails_witness :
    (AdapterArgs.mk none none none (some TransactionOptionsArg.fls)).transactionOptions
        = some TransactionOptionsArg.fls ∧
    ((mongooseAdapter (AdapterArgs.mk none none none (some TransactionOptionsArg.fls))
          "." (fun _ => false)).beginTransactionDefined = false ∧
      ∀ (c : Nat) (s : DBState),
        initTransaction
            (mongooseAdapter
              (AdapterArgs.mk none none none (some TransactionOptionsArg.fls))
              "." (fun _ => false)).beginTransactionDefined c s
          = (s, Except.error DBError.TransactionUnsupportedError)) :=
  ⟨rfl,
   unsupported_backend_initTransaction_fails
     (AdapterArgs.mk none none none (some TransactionOptionsArg.fls))
     "." (fun _ => false) rfl⟩

/-- C6: commitTransaction for a context with no session in the registry is
a no-op returning success, leaving the whole state (and so all persisted
data) unchanged. -/
theorem commitTransaction_no_session_noop (s : DBState) (c : Nat)
    (h : getSession c s.sessions = none) :
    commitTransaction c s = (s, Except.ok ()) := by
  simp [commitTransaction, h]

/-- Witness for C6: committing on a state with an empty registry. -/
theorem commitTransaction_no_session_noop_witness :
    getSession 0 (DBState.mk [] 0 [⟨0, "title"⟩] 1).sessions = none ∧
    commitTransaction 0 (DBState.mk [] 0 [⟨0, "title"⟩] 1)
      = (DBState.mk [] 0 [⟨0, "title"⟩] 1, Except.ok ()) :=
  ⟨by decide,
   commitTransaction_no_session_noop (DBState.mk [] 0 [⟨0, "title"⟩] 1) 0
     (by decide)⟩

lemma migrate_failure_aux {now : Nat} {defs : List MigrationDefinition}
    {records : List MigrationRecord}
    (h : applyMigrations (maxBatch records + 1) now
        (pendingMigrations defs records) records = none) :
    migrate now defs records
      = (records, Except.error DBError.MigrationError) := by
  simp [migrate, h]

lemma migrate_eq_of_apply_some {now : Nat} {defs : List MigrationDefinition}
    {records r0 : List MigrationRecord}
    (h : applyMigrations (maxBatch records + 1) now
        (pendingMigrations defs records) records = some r0) :
    migrate now defs records = (r0, Except.ok ()) := by
  simp [migrate, h]

lemma migrateFresh_eq_of_apply_some {now : Nat}
    {defs : List MigrationDefinition} {records r0 : List MigrationRecord}
    (h : applyMigrations 1 now defs [] = some r0) :
    migrateFresh true now defs records = (r0, Except.ok ()) := by
  simp [migrateFresh, h]

lemma migrateFresh_eq_of_apply_none {now : Nat}
    {defs : List MigrationDefinition} {records : List MigrationRecord}
    (h : applyMigrations 1 now defs [] = none) :
    migrateFresh true now defs records
      = ([], Except.error DBError.MigrationError) := by
  simp [migrateFresh, h]

/-- C7: when some pending migration has a failing up, the whole migrate
invocation is rolled back: it returns an error and persists zero new
MigrationRecords - the records are exactly the ones already present. -/
theorem migrate_failure_persists_nothing (now : Nat)
    (defs : List MigrationDefinition) (records : List MigrationRecord)
    (h : ∃ d ∈ pendingMigrations defs records, d.upOk = false) :
    migrate now defs records = (records, Except.error DBError.MigrationError) := by
  have hnone : applyMigrations (maxBatch records + 1) now
      (pendingMigrations defs records) records = none :=
    applyMigrations_none _ _ h
  simp [migrate, hnone]

/-- Witness for C7: a batch whose second migration fails. -/
theorem migrate_failure_persists_nothing_witness :
    (∃ d ∈ pendingMigrations [⟨"a", true⟩, ⟨"b", false⟩] [], d.upOk = false) ∧
    migrate 5 [⟨"a", true⟩, ⟨"b", false⟩] []
      = ([], Except.error DBError.MigrationError) :=
  ⟨by decide,
   migrate_failure_persists_nothing 5 [⟨"a", true⟩, ⟨"b", false⟩] []
     (by decide)⟩

/-- C8: a successful migrate inserts exactly one MigrationRecord per newly
applied definition, appended after the existing records, all sharing batch
number maxBatch + 1 (hence batch 1 on a fresh database); and a successful
migrateFresh replays every definition from scratch, so afterward every
record has batch 1. -/
theorem migrate_batch_numbering (now : Nat)
    (defs : List MigrationDefinition)
    (records recs recsF : List MigrationRecord) :
    (migrate now defs records = (recs, Except.ok ()) →
      recs = records ++ (pendingMigrations defs records).map
          (fun d => ⟨d.name, maxBatch records + 1, now⟩) ∧
      (records = [] → ∀ r ∈ recs, r.batch = 1)) ∧
    (migrateFresh true now defs records = (recsF, Except.ok ()) →
      recsF = defs.map (fun d => ⟨d.name, 1, now⟩) ∧
      ∀ r ∈ recsF, r.batch = 1) := by
  constructor
  · intro h
    cases happ : applyMigrations (maxBatch records + 1) now
        (pendingMigrations defs records) records with
    | none =>
        have hm : applyMigrations (maxBatch records + 1) now
            (pendingMigrations defs records) records = none := happ
        rw [migrate_failure_aux hm] at h
        simp at h
    | some r0 =>
        rw [migrate_eq_of_apply_some happ] at h
        simp only [Prod.mk.injEq] at h
        have heq := applyMigrations_some _ _ _ happ
        constructor
        · rw [← h.1, heq]
        · intro hrec r hr
          rw [← h.1, heq, hrec] at hr
          simp only [List.nil_append] at hr
          rcases List.mem_map.1 hr with ⟨d0, -, hd0⟩
          rw [← hd0]
          simp [maxBatch]
  · intro h
    cases happ : applyMigrations 1 now defs [] with
    | none =>
        rw [migrateFresh_eq_of_apply_none happ] at h
        simp at h
    | some r0 =>
        rw [migrateFresh_eq_of_apply_some happ] at h
        simp only [Prod.mk.injEq] at h
        have heq := applyMigrations_some _ _ _ happ
        constructor
        · rw [← h.1, heq]
          simp
        · intro r hr
          rw [← h.1, heq] at hr
          simp only [List.nil_append] at hr
          rcases List.mem_map.1 hr with ⟨d0, -, hd0⟩
          rw [← hd0]

/-- Witness for C8: one new migration on a fresh database, and a fresh
replay of the same definitions. -/
theorem migrate_batch_numbering_witness :
    (([⟨"a", 1, 5⟩] : List MigrationRecord)
        = [] ++ (pendingMigrations [⟨"a", true⟩] []).map
            (fun d => ⟨d.name, maxBatch [] + 1, 5⟩) ∧
      (([] : List MigrationRecord) = [] →
        ∀ r ∈ ([⟨"a", 1, 5⟩] : List MigrationRecord), r.batch = 1)) ∧
    (([⟨"a", 1, 5⟩] : List MigrationRecord)
        = ([⟨"a", true⟩] : List MigrationDefinition).map
            (fun d => ⟨d.name, 1, 5⟩) ∧
      ∀ r ∈ ([⟨"a", 1, 5⟩] : List MigrationRecord), r.batch = 1) :=
  ⟨(migrate_batch_numbering 5 [⟨"a", true⟩] [] [⟨"a", 1, 5⟩] [⟨"a", 1, 5⟩]).1
     rfl,
   (migrate_batch_numbering 5 [⟨"a", true⟩] [] [⟨"a", 1, 5⟩] [⟨"a", 1, 5⟩]).2
     rfl⟩

/-- C9 counterexample: the explicit migrationDir argument is NOT always
used when provided - the empty string is provided yet ignored, because the
source checks JS truthiness (`if (migrationDir) return migrationDir`), and
the resolution falls through to the default. -/
theorem findMigrationDir_empty_arg_ignored :
    findMigrationDir (some "") "/app" (fun _ => false) = "/app/src/migrations" ∧
    "/app/src/migrations" ≠ "" := by
  constructor
  · rfl
  · decide

/-- C9 (amended): the migration directory is resolved deterministically:
a provided non-empty migrationDir argument is used as-is; otherwise (the
argument absent or empty, hence falsy) the first existing directory among
src/migrations, dist/migrations and migrations relative to the working
directory is used, and src/migrations is the default when none exists. -/
theorem findMigrationDir_resolution (md cwd : String) (ex : String → Bool)
    (hmd : md ≠ "") :
    findMigrationDir (some md) cwd ex = md ∧
    ∀ md' : Option String, strTruthy md' = false →
      ((ex (resolvePath cwd "src/migrations") = true →
          findMigrationDir md' cwd ex = resolvePath cwd "src/migrations") ∧
        (ex (resolvePath cwd "src/migrations") = false →
          ex (resolvePath cwd "dist/migrations") = true →
          findMigrationDir md' cwd ex = resolvePath cwd "dist/migrations") ∧
        (ex (resolvePath cwd "src/migrations") = false →
          ex (resolvePath cwd "dist/migrations") = false →
          ex (resolvePath cwd "migrations") = true →
          findMigrationDir md' cwd ex = resolvePath cwd "migrations") ∧
        (ex (resolvePath cwd "src/migrations") = false →
          ex (resolvePath cwd "dist/migrations") = false →
          ex (resolvePath cwd "migrations") = false →
          findMigrationDir md' cwd ex = resolvePath cwd "src/migrations")) := by
  constructor
  · simp [findMigrationDir, strTruthy, hmd]
  · intro md' hmd'
    refine ⟨fun h1 => ?_, fun h1 h2 => ?_, fun h1 h2 h3 => ?_,
      fun h1 h2 h3 => ?_⟩ <;>
      simp [findMigrationDir, hmd', h1, *]

/-- Witness for C9: a non-empty argument, and the fallback chain on a file
system where only dist/migrations exists. -/
theorem findMigrationDir_resolution_witness :
    findMigrationDir (some "custom/dir") "/app"
        (fun p => p == "/app/dist/migrations") = "custom/dir" ∧
    strTruthy none = false ∧
    findMigrationDir none "/app" (fun p => p == "/app/dist/migrations")
      = "/app/dist/migrations" :=
  ⟨(findMigrationDir_resolution "custom/dir" "/app"
      (fun p => p == "/app/dist/migrations") (by decide)).1,
   rfl,
   ((findMigrationDir_resolution "custom/dir" "/app"
       (fun p => p == "/app/dist/migrations") (by decide)).2 none rfl).2.1
     (by decide) (by decide)⟩

/-- C10: transactions are enabled by default: constructed without a
transactionOptions argument the adapter stores the empty options object
and defines beginTransaction; beginTransaction (and the stored options)
are undefined exactly when transactionOptions false was passed; and the
adapter always starts with an empty session registry. -/
theorem mongooseAdapter_transaction_defaults (cwd : String)
    (ex : String → Bool) :
    (∀ args : AdapterArgs, args.transactionOptions = none →
        (mongooseAdapter args cwd ex).transactionOptions = some ⟨[]⟩ ∧
        (mongooseAdapter args cwd ex).beginTransactionDefined = true) ∧
    (∀ args : AdapterArgs,
        ((mongooseAdapter args cwd ex).beginTransactionDefined = false ↔
          args.transactionOptions = some TransactionOptionsArg.fls) ∧
        ((mongooseAdapter args cwd ex).transactionOptions = none ↔
          args.transactionOptions = some TransactionOptionsArg.fls)) ∧
    (∀ args : AdapterArgs, (mongooseAdapter args cwd ex).sessions = []) := by
  refine ⟨fun args h => ?_, fun args => ?_, fun args => rfl⟩
  · simp [mongooseAdapter, h]
  · cases hta : args.transactionOptions with
    | none => simp [mongooseAdapter, hta]
    | some v => cases v <;> simp [mongooseAdapter, hta]

/-- Witness for C10: the default construction and the explicit false. -/
theorem mongooseAdapter_transaction_defaults_witness :
    (mongooseAdapter (AdapterArgs.mk none none none none) "."
        (fun _ => false)).transactionOptions = some ⟨[]⟩ ∧
    (mongooseAdapter (AdapterArgs.mk none none none none) "."
        (fun _ => false)).beginTransactionDefined = true ∧
    (mongooseAdapter
        (AdapterArgs.mk none none none (some TransactionOptionsArg.fls)) "."
        (fun _ => false)).beginTransactionDefined = false ∧
    (mongooseAdapter (AdapterArgs.mk none none none none) "."
        (fun _ => false)).sessions = [] :=
  ⟨((mongooseAdapter_transaction_defaults "." (fun _ => false)).1
      (AdapterArgs.mk none none none none) rfl).1,
   ((mongooseAdapter_transaction_defaults "." (fun _ => false)).1
      (AdapterArgs.mk none none none none) rfl).2,
   ((mongooseAdapter_transaction_defaults "." (fun _ => false)).2.1
      (AdapterArgs.mk none none none (some TransactionOptionsArg.fls))).1.mpr
     rfl,
   (mongooseAdapter_transaction_defaults "." (fun _ => false)).2.2
     (AdapterArgs.mk none none none none)⟩

end PayloadDB
